import Mathlib

/-!
Verification of the `EarlyAllocator` bump allocator
(`modules/bump_allocator/src/lib.rs`).

The allocator manages one contiguous region `[start, end)`.  Bytes are
allocated forward from `start` (cursor `b_pos`), pages backward from `end`
(cursor `p_pos`).  `count` counts outstanding byte allocations; when it
returns to zero the whole byte region is reclaimed at once.

Machine integers (`usize`, assumed 64 bits) are modelled as `Nat` with
explicit wrapping (`% 2^64`) exactly where Rust release-mode arithmetic
wraps; `checked_add`/`checked_sub` are modelled explicitly.  The
outstanding-allocation counter `count` is modelled as an unbounded `Nat`
(its increment is not subject to interesting wrapping in any claim).
A `panic!`/`assert!` failure is modelled as `Option.none`.
-/

namespace EarlyAlloc

/-- Width of the address space: `usize` is 64 bits. -/
def WORD : Nat := 2 ^ 64

/-- Wrapping 64-bit addition, as Rust release-mode `a + b` on `usize`. -/
def wadd (a b : Nat) : Nat := (a % WORD + b % WORD) % WORD

/-- Wrapping 64-bit subtraction, as Rust release-mode `a - b` on `usize`. -/
def wsub (a b : Nat) : Nat := (a % WORD + (WORD - b % WORD)) % WORD

/-- Bitwise complement on 64 bits, Rust `!x` on `usize`. -/
def not64 (x : Nat) : Nat := WORD - 1 - x % WORD

/-- Rust `a.checked_add(b)` on `usize`. -/
def checked_add (a b : Nat) : Option Nat :=
  if a % WORD + b % WORD < WORD then some (a % WORD + b % WORD) else none

/-- Rust `a.checked_sub(b)` on `usize`. -/
def checked_sub (a b : Nat) : Option Nat :=
  if b % WORD ≤ a % WORD then some (a % WORD - b % WORD) else none

/-- Error type of the allocator interface; the two variants this code uses. -/
inductive AllocError where
  | InvalidParam
  | NoMemory
deriving DecidableEq, Repr

/-- Rust `AllocResult<T> = Result<T, AllocError>`. -/
inductive AllocResult (T : Type) where
  | ok (value : T)
  | error (e : AllocError)
deriving DecidableEq, Repr

/-- The allocator state: `struct EarlyAllocator` with fields
`start`, `end`, `b_pos`, `p_pos`, `count` (field `end` is renamed `end_`
because `end` is a Lean keyword). -/
structure EarlyAllocator where
  start : Nat
  end_ : Nat
  b_pos : Nat
  p_pos : Nat
  count : Nat
deriving DecidableEq, Repr

namespace EarlyAllocator

/-- `EarlyAllocator::new()`: the zeroed, uninitialized arena. -/
def new : EarlyAllocator :=
  { start := 0, end_ := 0, b_pos := 0, p_pos := 0, count := 0 }

/-- `EarlyAllocator::align_up(addr, align) = (addr + align - 1) & !(align - 1)`,
with the release-mode wrapping of the additions and subtractions made
explicit. -/
def align_up (addr align : Nat) : Nat :=
  wsub (wadd addr align) 1 &&& not64 (wsub align 1)

/-- `BaseAllocator::init(start, size)`: sets `end = start + size` (wrapping),
`b_pos = start`, `p_pos = end`, `count = 0`. -/
def init (s : EarlyAllocator) (start size : Nat) : EarlyAllocator :=
  let _ := s
  { start := start
    end_ := wadd start size
    b_pos := start
    p_pos := wadd start size
    count := 0 }

/-- `ByteAllocator::alloc(layout)` with `size = layout.size()`,
`align = layout.align()`.  Returns the (possibly updated) state together
with the result; on error the state is returned unchanged, mirroring the
early `?`/`return` before any mutation. -/
def alloc (s : EarlyAllocator) (size align : Nat) :
    EarlyAllocator × AllocResult Nat :=
  let aligned := align_up s.b_pos align
  match checked_add aligned size with
  | none => (s, AllocResult.error AllocError.InvalidParam)
  | some new_b_pos =>
    if new_b_pos > s.p_pos then
      (s, AllocResult.error AllocError.NoMemory)
    else
      ({ s with b_pos := new_b_pos, count := s.count + 1 }, AllocResult.ok aligned)

/-- `ByteAllocator::dealloc(pos, layout)` (both arguments are ignored by the
source).  `assert!(self.count > 0)` is modelled as `none` (panic) when the
assertion fails. -/
def dealloc (s : EarlyAllocator) : Option EarlyAllocator :=
  if s.count > 0 then
    let count := s.count - 1
    some { s with
      count := count
      b_pos := if count = 0 then s.start else s.b_pos }
  else
    none

/-- `ByteAllocator::total_bytes() = end - start`. -/
def total_bytes (s : EarlyAllocator) : Nat := wsub s.end_ s.start

/-- `ByteAllocator::used_bytes() = b_pos - start`. -/
def used_bytes (s : EarlyAllocator) : Nat := wsub s.b_pos s.start

/-- `ByteAllocator::available_bytes() = p_pos.saturating_sub(b_pos)`
(truncated `Nat` subtraction is exactly saturating subtraction). -/
def available_bytes (s : EarlyAllocator) : Nat := s.p_pos - s.b_pos

/-- `PageAllocator::alloc_pages(num_pages, align_pow2)` for page size
`PAGE_SIZE`.  `num_pages * PAGE_SIZE` wraps (unchecked multiplication);
`1 << align_pow2` masks the shift amount (release-mode shift); the
subtraction is checked.  On error the state is returned unchanged. -/
def alloc_pages (PAGE_SIZE : Nat) (s : EarlyAllocator)
    (num_pages align_pow2 : Nat) : EarlyAllocator × AllocResult Nat :=
  let size := (num_pages % WORD) * (PAGE_SIZE % WORD) % WORD
  let align := (1 <<< (align_pow2 % 64)) % WORD
  match checked_sub s.p_pos size with
  | none => (s, AllocResult.error AllocError.InvalidParam)
  | some v =>
    let new_p_pos := v &&& not64 (wsub align 1)
    if new_p_pos < s.b_pos then
      (s, AllocResult.error AllocError.NoMemory)
    else
      ({ s with p_pos := new_p_pos }, AllocResult.ok new_p_pos)

/-- `PageAllocator::dealloc_pages(pos, num_pages)`: the body is empty. -/
def dealloc_pages (s : EarlyAllocator) (pos num_pages : Nat) : EarlyAllocator :=
  let _ := pos
  let _ := num_pages
  s

/-- `PageAllocator::total_pages() = (end - start) / PAGE_SIZE`. -/
def total_pages (PAGE_SIZE : Nat) (s : EarlyAllocator) : Nat :=
  wsub s.end_ s.start / PAGE_SIZE

/-- `PageAllocator::used_pages() = (end - p_pos) / PAGE_SIZE`. -/
def used_pages (PAGE_SIZE : Nat) (s : EarlyAllocator) : Nat :=
  wsub s.end_ s.p_pos / PAGE_SIZE

/-- `PageAllocator::available_pages() = available_bytes() / PAGE_SIZE`. -/
def available_pages (PAGE_SIZE : Nat) (s : EarlyAllocator) : Nat :=
  available_bytes s / PAGE_SIZE

end EarlyAllocator

/-- An operation against the allocator interface (the arguments the source
ignores are kept where they influence nothing). -/
inductive Op where
  | alloc (size align : Nat)
  | dealloc
  | alloc_pages (num_pages align_pow2 : Nat)
  | dealloc_pages (pos num_pages : Nat)

/-- One interface call: `none` means the call panicked
(`dealloc` with `count == 0`); a failed allocation leaves the state
unchanged and continues. -/
def step (PAGE_SIZE : Nat) (s : EarlyAllocator) : Op → Option EarlyAllocator
  | Op.alloc size align => some (s.alloc size align).1
  | Op.dealloc => s.dealloc
  | Op.alloc_pages n k => some (EarlyAllocator.alloc_pages PAGE_SIZE s n k).1
  | Op.dealloc_pages p n => some (s.dealloc_pages p n)

/-- Absence of arithmetic overflow in a step: for `alloc`, the alignment is a
power of two (guaranteed by `Layout`) and rounding `b_pos` up to it stays
within the address space.  The other operations need no such condition. -/
def opSafe (s : EarlyAllocator) : Op → Prop
  | Op.alloc size align =>
      (∃ k, k < 64 ∧ align = 2 ^ k) ∧ s.b_pos + align ≤ WORD ∧ size < WORD
  | _ => True

/-- Executions in which every step is overflow-free and none panics. -/
inductive SafeSteps (PAGE_SIZE : Nat) : EarlyAllocator → List Op → EarlyAllocator → Prop where
  | nil (s : EarlyAllocator) : SafeSteps PAGE_SIZE s [] s
  | cons {s s' s'' : EarlyAllocator} {op : Op} {ops : List Op} :
      opSafe s op → step PAGE_SIZE s op = some s' → SafeSteps PAGE_SIZE s' ops s'' →
      SafeSteps PAGE_SIZE s (op :: ops) s''

/-- The cursor-ordering invariant of the arena. -/
def Inv (s : EarlyAllocator) : Prop :=
  s.start ≤ s.b_pos ∧ s.b_pos ≤ s.p_pos ∧ s.p_pos ≤ s.end_

end EarlyAlloc

namespace EarlyAlloc

open EarlyAllocator

/-- Clearing the low `k` bits of `x < 2^n` (bitwise AND with `2^n - 2^k`)
rounds `x` down to a multiple of `2^k`. -/
theorem land_mask {x k n : Nat} (hx : x < 2 ^ n) (hk : k ≤ n) :
    x &&& (2 ^ n - 2 ^ k) = 2 ^ k * (x / 2 ^ k) := by
  have hmask : 2 ^ n - 2 ^ k = (2 ^ (n - k) - 1) <<< k := by
    rw [Nat.shiftLeft_eq, Nat.sub_mul, one_mul, ← pow_add, Nat.sub_add_cancel hk]
  have hrhs : 2 ^ k * (x / 2 ^ k) = (x >>> k) <<< k := by
    rw [Nat.shiftRight_eq_div_pow, Nat.shiftLeft_eq, Nat.mul_comm]
  rw [hmask, hrhs]
  apply Nat.eq_of_testBit_eq
  intro i
  rw [Nat.testBit_land, Nat.testBit_shiftLeft, Nat.testBit_shiftLeft,
    Nat.testBit_shiftRight, Nat.testBit_two_pow_sub_one]
  by_cases hik : k ≤ i
  · have hki : k + (i - k) = i := by omega
    rw [hki]
    by_cases hin : i < n
    · have h1 : i - k < n - k := by omega
      simp [hik, h1]
    · have h2 : x < 2 ^ i :=
        lt_of_lt_of_le hx (Nat.pow_le_pow_right (by norm_num) (by omega))
      simp [Nat.testBit_lt_two_pow h2]
  · simp [hik]

theorem two_pow_lt_word {k : Nat} (hk : k < 64) : 2 ^ k < WORD := by
  unfold WORD
  exact Nat.pow_lt_pow_right (by norm_num) hk

theorem wsub_one_eq {c : Nat} (hc0 : 0 < c) (hc : c < WORD) : wsub c 1 = c - 1 := by
  unfold wsub
  rw [Nat.mod_eq_of_lt hc]
  have h1 : (1 : Nat) % WORD = 1 := by norm_num [WORD]
  rw [h1]
  have hW : WORD = 18446744073709551616 := by norm_num [WORD]
  rw [hW] at hc ⊢
  omega

theorem not64_sub_one {c : Nat} (hc0 : 0 < c) (hc : c < WORD) :
    not64 (c - 1) = WORD - c := by
  unfold not64
  have h1 : c - 1 < WORD := by omega
  rw [Nat.mod_eq_of_lt h1]
  omega

/-- For a power-of-two alignment, the mask `!(align - 1)` is `2^64 - align`. -/
theorem mask_not64 {k : Nat} (hk : k < 64) :
    not64 (wsub (2 ^ k) 1) = WORD - 2 ^ k := by
  rw [wsub_one_eq (Nat.pos_pow_of_pos k (by norm_num)) (two_pow_lt_word hk)]
  exact not64_sub_one (Nat.pos_pow_of_pos k (by norm_num)) (two_pow_lt_word hk)

theorem align_up_lt (addr align : Nat) : align_up addr align < WORD := by
  unfold align_up
  have h1 : wsub (wadd addr align) 1 < WORD := by
    unfold wsub
    exact Nat.mod_lt _ (by norm_num [WORD])
  exact lt_of_le_of_lt Nat.and_le_left h1

/-- `align_up` with a power-of-two alignment always produces a multiple of
it (no side condition: the wrapped sum is still masked). -/
theorem align_up_pow2 (addr k : Nat) (hk : k < 64) :
    align_up addr (2 ^ k) =
      2 ^ k * (wsub (wadd addr (2 ^ k)) 1 / 2 ^ k) := by
  unfold align_up
  rw [mask_not64 hk]
  have hx : wsub (wadd addr (2 ^ k)) 1 < WORD := by
    unfold wsub
    exact Nat.mod_lt _ (by norm_num [WORD])
  exact land_mask hx (by omega)

theorem wsub_wadd_one {a c : Nat} (hc0 : 0 < c) (h : a + c ≤ WORD) :
    wsub (wadd a c) 1 = a + c - 1 := by
  unfold wsub wadd
  have hW : WORD = 18446744073709551616 := by norm_num [WORD]
  rw [hW] at h ⊢
  omega

/-- When `addr + align` does not overflow, `align_up` is the arithmetic
round-up `align * ⌈addr / align⌉`. -/
theorem align_up_eq {addr k : Nat} (hk : k < 64) (h : addr + 2 ^ k ≤ WORD) :
    align_up addr (2 ^ k) = 2 ^ k * ((addr + 2 ^ k - 1) / 2 ^ k) := by
  rw [align_up_pow2 addr k hk,
    wsub_wadd_one (Nat.pos_pow_of_pos k (by norm_num)) h]

theorem le_roundUp {addr c : Nat} (hc : 0 < c) :
    addr ≤ c * ((addr + c - 1) / c) := by
  have h1 : addr + c - 1 < c * ((addr + c - 1) / c) + c := by
    conv_lhs => rw [← Nat.div_add_mod (addr + c - 1) c]
    exact Nat.add_lt_add_left (Nat.mod_lt _ hc) _
  revert h1
  generalize c * ((addr + c - 1) / c) = t
  intro h1
  omega

theorem roundUp_le (addr c : Nat) :
    c * ((addr + c - 1) / c) ≤ addr + c - 1 := by
  rw [Nat.mul_comm]
  exact Nat.div_mul_le_self _ _

end EarlyAlloc

namespace EarlyAlloc

open EarlyAllocator

/-- Explicit branch form of `alloc` for an in-range `size`. -/
theorem alloc_def (s : EarlyAllocator) (size align : Nat) (h2 : size < WORD) :
    s.alloc size align =
      if WORD ≤ align_up s.b_pos align + size then
        (s, AllocResult.error AllocError.InvalidParam)
      else if s.p_pos < align_up s.b_pos align + size then
        (s, AllocResult.error AllocError.NoMemory)
      else
        ({ s with b_pos := align_up s.b_pos align + size, count := s.count + 1 },
          AllocResult.ok (align_up s.b_pos align)) := by
  simp only [EarlyAllocator.alloc, checked_add]
  rw [Nat.mod_eq_of_lt (align_up_lt s.b_pos align), Nat.mod_eq_of_lt h2]
  by_cases hof : align_up s.b_pos align + size < WORD
  · rw [if_pos hof, if_neg (by omega)]
  · rw [if_neg hof, if_pos (by omega)]

/-- Explicit branch form of `alloc_pages` when the size product does not
wrap and the cursor is in range. -/
theorem alloc_pages_def (PS : Nat) (s : EarlyAllocator) (n k : Nat)
    (hPS : PS < WORD) (hn : n < WORD) (hk : k < 64) (hsz : n * PS < WORD)
    (hp : s.p_pos < WORD) :
    EarlyAllocator.alloc_pages PS s n k =
      if s.p_pos < n * PS then
        (s, AllocResult.error AllocError.InvalidParam)
      else if 2 ^ k * ((s.p_pos - n * PS) / 2 ^ k) < s.b_pos then
        (s, AllocResult.error AllocError.NoMemory)
      else
        ({ s with p_pos := 2 ^ k * ((s.p_pos - n * PS) / 2 ^ k) },
          AllocResult.ok (2 ^ k * ((s.p_pos - n * PS) / 2 ^ k))) := by
  simp only [EarlyAllocator.alloc_pages, checked_sub, Nat.mod_eq_of_lt hn,
    Nat.mod_eq_of_lt hPS]
  simp only [Nat.mod_eq_of_lt hsz, Nat.mod_eq_of_lt hp]
  have halign : (1 <<< (k % 64)) % WORD = 2 ^ k := by
    rw [Nat.mod_eq_of_lt (by omega : k < 64), Nat.shiftLeft_eq, one_mul,
      Nat.mod_eq_of_lt (two_pow_lt_word hk)]
  rw [halign]
  by_cases huf : n * PS ≤ s.p_pos
  · rw [if_pos huf, if_neg (by omega)]
    have hmask : (s.p_pos - n * PS) &&& not64 (wsub (2 ^ k) 1) =
        2 ^ k * ((s.p_pos - n * PS) / 2 ^ k) := by
      rw [mask_not64 hk]
      exact land_mask (lt_of_le_of_lt (Nat.sub_le _ _) hp) (Nat.le_of_lt hk)
    simp only [hmask]
  · rw [if_neg huf, if_pos (by omega)]

/-- The state after any `alloc_pages` call: unchanged, or only the page
cursor moved, downward but not below the byte cursor. -/
theorem alloc_pages_fst (PS : Nat) (s : EarlyAllocator) (n k : Nat) :
    (EarlyAllocator.alloc_pages PS s n k).1 = s ∨
      ∃ v, s.b_pos ≤ v ∧ v ≤ s.p_pos ∧
        (EarlyAllocator.alloc_pages PS s n k).1 = { s with p_pos := v } := by
  simp only [EarlyAllocator.alloc_pages, checked_sub]
  by_cases h1 : ((n % WORD) * (PS % WORD) % WORD) % WORD ≤ s.p_pos % WORD
  · simp only [if_pos h1]
    by_cases h2 : (s.p_pos % WORD - ((n % WORD) * (PS % WORD) % WORD) % WORD) &&&
        not64 (wsub ((1 <<< (k % 64)) % WORD) 1) < s.b_pos
    · simp only [if_pos h2]
      exact Or.inl trivial
    · simp only [if_neg h2]
      refine Or.inr ⟨_, by omega, ?hle, rfl⟩
      calc (s.p_pos % WORD - ((n % WORD) * (PS % WORD) % WORD) % WORD) &&&
            not64 (wsub ((1 <<< (k % 64)) % WORD) 1)
          ≤ s.p_pos % WORD - ((n % WORD) * (PS % WORD) % WORD) % WORD :=
            Nat.and_le_left
        _ ≤ s.p_pos % WORD := Nat.sub_le _ _
        _ ≤ s.p_pos := Nat.mod_le _ _
  · simp only [if_neg h1]
    exact Or.inl trivial

/-- The state after any `dealloc` call that does not panic. -/
theorem dealloc_some {s s' : EarlyAllocator} (h : s.dealloc = some s') :
    0 < s.count ∧
      s' = { s with
        count := s.count - 1
        b_pos := if s.count - 1 = 0 then s.start else s.b_pos } := by
  unfold EarlyAllocator.dealloc at h
  by_cases hc : s.count > 0
  · rw [if_pos hc] at h
    exact ⟨hc, by injection h with h2; exact h2.symm⟩
  · rw [if_neg hc] at h
    cases h

end EarlyAlloc

namespace EarlyAlloc

open EarlyAllocator

/-- A safe, non-panicking step preserves the cursor-ordering invariant. -/
theorem step_inv (PS : Nat) {s s' : EarlyAllocator} {op : Op}
    (hsafe : opSafe s op) (h : step PS s op = some s') (hinv : Inv s) : Inv s' := by
  obtain ⟨h1, h2, h3⟩ := hinv
  cases op with
  | alloc size align =>
    obtain ⟨⟨k, hk, rfl⟩, hbw, hsz⟩ := hsafe
    simp only [step] at h
    injection h with h
    rw [alloc_def s size (2 ^ k) hsz] at h
    have hA : s.b_pos ≤ align_up s.b_pos (2 ^ k) := by
      rw [align_up_eq hk hbw]
      exact le_roundUp (Nat.pos_pow_of_pos k (by norm_num))
    split_ifs at h with hc1 hc2
    · subst h
      exact ⟨h1, h2, h3⟩
    · subst h
      exact ⟨h1, h2, h3⟩
    · subst h
      simp only [Inv]
      omega
  | dealloc =>
    simp only [step] at h
    obtain ⟨hc, rfl⟩ := dealloc_some h
    by_cases hc0 : s.count - 1 = 0
    · simp only [if_pos hc0]
      exact ⟨Nat.le_refl _, le_trans h1 h2, h3⟩
    · simp only [if_neg hc0]
      exact ⟨h1, h2, h3⟩
  | alloc_pages n k =>
    simp only [step] at h
    injection h with h
    rcases alloc_pages_fst PS s n k with he | ⟨v, hbv, hvp, he⟩ <;> rw [he] at h <;>
      subst h
    · exact ⟨h1, h2, h3⟩
    · exact ⟨h1, hbv, le_trans hvp h3⟩
  | dealloc_pages p n =>
    simp only [step, EarlyAllocator.dealloc_pages] at h
    injection h with h
    subst h
    exact ⟨h1, h2, h3⟩

/-- Safe executions preserve the cursor-ordering invariant. -/
theorem safeSteps_inv (PS : Nat) {s : EarlyAllocator} {ops : List Op}
    {s' : EarlyAllocator} (h : SafeSteps PS s ops s') (hinv : Inv s) : Inv s' := by
  induction h with
  | nil s => exact hinv
  | cons hsafe hstep _ ih => exact ih (step_inv PS hsafe hstep hinv)

end EarlyAlloc

namespace EarlyAlloc

open EarlyAllocator

/-- C1: starting from `init(start, size)`, every sequence of `alloc`,
`dealloc`, `alloc_pages`, `dealloc_pages` calls in which no arithmetic
overflow occurs keeps `start ≤ b_pos ≤ p_pos ≤ end` after every call. -/
theorem inv_preserved (PS start size : Nat) (ops : List Op) (s' : EarlyAllocator)
    (hof : start + size < WORD)
    (hs : SafeSteps PS (EarlyAllocator.new.init start size) ops s') :
    s'.start ≤ s'.b_pos ∧ s'.b_pos ≤ s'.p_pos ∧ s'.p_pos ≤ s'.end_ := by
  refine safeSteps_inv PS hs ?hinv
  simp only [Inv, EarlyAllocator.init, EarlyAllocator.new, wadd]
  have hW : WORD = 18446744073709551616 := by norm_num [WORD]
  rw [hW] at hof ⊢
  omega

/-- Witness for C1: region `[0, 0x2000)`, one safe `alloc(16, 8)` step. -/
theorem inv_preserved_witness :
    ((EarlyAllocator.new.init 0 8192).alloc 16 8).1.start ≤
        ((EarlyAllocator.new.init 0 8192).alloc 16 8).1.b_pos ∧
      ((EarlyAllocator.new.init 0 8192).alloc 16 8).1.b_pos ≤
        ((EarlyAllocator.new.init 0 8192).alloc 16 8).1.p_pos ∧
      ((EarlyAllocator.new.init 0 8192).alloc 16 8).1.p_pos ≤
        ((EarlyAllocator.new.init 0 8192).alloc 16 8).1.end_ :=
  inv_preserved 4096 0 8192 [Op.alloc 16 8] _ (by decide)
    (SafeSteps.cons (by exact ⟨⟨3, by decide, rfl⟩, by decide, by decide⟩) rfl
      (SafeSteps.nil _))

/-- C2: `alloc(size, 2^k)` fails with `InvalidParam` exactly when the
aligned end `roundUp(b_pos, 2^k) + size` is not representable, fails with
`NoMemory` exactly when that representable end exceeds `p_pos`, and on both
failures the state is unchanged. -/
theorem alloc_error_spec (s : EarlyAllocator) (size k : Nat) (hk : k < 64)
    (hw : s.b_pos + 2 ^ k ≤ WORD) (hsz : size < WORD) :
    ((s.alloc size (2 ^ k)).2 = AllocResult.error AllocError.InvalidParam ↔
      WORD ≤ 2 ^ k * ((s.b_pos + 2 ^ k - 1) / 2 ^ k) + size) ∧
    ((s.alloc size (2 ^ k)).2 = AllocResult.error AllocError.NoMemory ↔
      2 ^ k * ((s.b_pos + 2 ^ k - 1) / 2 ^ k) + size < WORD ∧
        s.p_pos < 2 ^ k * ((s.b_pos + 2 ^ k - 1) / 2 ^ k) + size) ∧
    (∀ e, (s.alloc size (2 ^ k)).2 = AllocResult.error e →
      (s.alloc size (2 ^ k)).1 = s) := by
  rw [alloc_def s size (2 ^ k) hsz, align_up_eq hk hw]
  split_ifs with hc1 hc2
  · exact ⟨⟨fun _ => hc1, fun _ => rfl⟩,
      ⟨fun h => absurd h (by simp), fun h => absurd h.1 (by omega)⟩,
      fun e _ => rfl⟩
  · exact ⟨⟨fun h => absurd h (by simp), fun h => absurd h (by omega)⟩,
      ⟨fun _ => ⟨by omega, hc2⟩, fun _ => rfl⟩,
      fun e _ => rfl⟩
  · exact ⟨⟨fun h => absurd h (by simp), fun h => absurd h (by omega)⟩,
      ⟨fun h => absurd h (by simp), fun h => absurd h.2 (by omega)⟩,
      fun e h => absurd h (by simp)⟩

/-- Witness for C2: an arena whose byte cursor sits 16 bytes below the top
of the address space; `alloc(100, 8)` overflows and reports `InvalidParam`
leaving the state unchanged. -/
theorem alloc_error_spec_witness :
    (({ start := 0, end_ := WORD - 1, b_pos := WORD - 16, p_pos := WORD - 1,
          count := 1 } : EarlyAllocator).alloc 100 (2 ^ 3)).2 =
        AllocResult.error AllocError.InvalidParam ∧
      (({ start := 0, end_ := WORD - 1, b_pos := WORD - 16, p_pos := WORD - 1,
          count := 1 } : EarlyAllocator).alloc 100 (2 ^ 3)).1 =
        { start := 0, end_ := WORD - 1, b_pos := WORD - 16, p_pos := WORD - 1,
          count := 1 } := by
  have h := alloc_error_spec
    { start := 0, end_ := WORD - 1, b_pos := WORD - 16, p_pos := WORD - 1, count := 1 }
    100 3 (by decide) (by decide) (by decide)
  have h1 := h.1.mpr (by decide)
  exact ⟨h1, h.2.2 _ h1⟩

/-- C3: `alloc_pages(n, k)` fails with `InvalidParam` exactly when
`p_pos - n*PAGE_SIZE` underflows, fails with `NoMemory` exactly when the
masked difference falls below `b_pos`, otherwise succeeds setting `p_pos`
to the masked value and returning it; failures leave the state unchanged. -/
theorem alloc_pages_error_spec (PS : Nat) (s : EarlyAllocator) (n k : Nat)
    (hPS : PS < WORD) (hn : n < WORD) (hk : k < 64) (hsz : n * PS < WORD)
    (hp : s.p_pos < WORD) :
    ((EarlyAllocator.alloc_pages PS s n k).2 =
        AllocResult.error AllocError.InvalidParam ↔ s.p_pos < n * PS) ∧
    ((EarlyAllocator.alloc_pages PS s n k).2 =
        AllocResult.error AllocError.NoMemory ↔
      n * PS ≤ s.p_pos ∧ 2 ^ k * ((s.p_pos - n * PS) / 2 ^ k) < s.b_pos) ∧
    (n * PS ≤ s.p_pos → s.b_pos ≤ 2 ^ k * ((s.p_pos - n * PS) / 2 ^ k) →
      EarlyAllocator.alloc_pages PS s n k =
        ({ s with p_pos := 2 ^ k * ((s.p_pos - n * PS) / 2 ^ k) },
          AllocResult.ok (2 ^ k * ((s.p_pos - n * PS) / 2 ^ k)))) ∧
    (∀ e, (EarlyAllocator.alloc_pages PS s n k).2 = AllocResult.error e →
      (EarlyAllocator.alloc_pages PS s n k).1 = s) := by
  rw [alloc_pages_def PS s n k hPS hn hk hsz hp]
  split_ifs with hc1 hc2
  · exact ⟨⟨fun _ => hc1, fun _ => rfl⟩,
      ⟨fun h => absurd h (by simp), fun h => absurd h.1 (by omega)⟩,
      fun h _ => absurd h (by omega), fun e _ => rfl⟩
  · exact ⟨⟨fun h => absurd h (by simp), fun h => absurd h (by omega)⟩,
      ⟨fun _ => ⟨by omega, hc2⟩, fun _ => rfl⟩,
      fun _ h => absurd h (by omega), fun e _ => rfl⟩
  · exact ⟨⟨fun h => absurd h (by simp), fun h => absurd h (by omega)⟩,
      ⟨fun h => absurd h (by simp), fun h => absurd h.2 (by omega)⟩,
      fun _ _ => rfl, fun e h => absurd h (by simp)⟩

/-- Witness for C3: with `p_pos = 0` (spec scenario 6), requesting one more
page underflows and reports `InvalidParam`, leaving the state unchanged. -/
theorem alloc_pages_error_spec_witness :
    (EarlyAllocator.alloc_pages 4096
        { start := 0, end_ := 8192, b_pos := 0, p_pos := 0, count := 0 } 1 12).2 =
        AllocResult.error AllocError.InvalidParam ∧
      (EarlyAllocator.alloc_pages 4096
        { start := 0, end_ := 8192, b_pos := 0, p_pos := 0, count := 0 } 1 12).1 =
        { start := 0, end_ := 8192, b_pos := 0, p_pos := 0, count := 0 } := by
  have h := alloc_pages_error_spec 4096
    { start := 0, end_ := 8192, b_pos := 0, p_pos := 0, count := 0 } 1 12
    (by decide) (by decide) (by decide) (by decide) (by decide)
  have h1 := h.1.mpr (by decide)
  exact ⟨h1, h.2.2.2 _ h1⟩

end EarlyAlloc

namespace EarlyAlloc

open EarlyAllocator

/-- C5: `dealloc` panics exactly when `count == 0`; with `count > 0` it
decrements the count, resets `b_pos` to `start` exactly when the count
reaches zero, and changes nothing else. -/
theorem dealloc_spec (s : EarlyAllocator) :
    (s.dealloc = none ↔ s.count = 0) ∧
    (0 < s.count →
      s.dealloc = some { s with
        count := s.count - 1
        b_pos := if s.count - 1 = 0 then s.start else s.b_pos }) := by
  constructor
  · unfold EarlyAllocator.dealloc
    by_cases hc : s.count > 0
    · rw [if_pos hc]
      simp
      omega
    · rw [if_neg hc]
      simp
      omega
  · intro hc
    unfold EarlyAllocator.dealloc
    rw [if_pos hc]

/-- Witness for C5: deallocating with two outstanding allocations does not
panic, decrements the count to one, and leaves `b_pos` alone. -/
theorem dealloc_spec_witness :
    ({ start := 0, end_ := 100, b_pos := 7, p_pos := 50,
        count := 2 } : EarlyAllocator).dealloc =
      some { start := 0, end_ := 100, b_pos := 7, p_pos := 50, count := 1 } := by
  have h := (dealloc_spec
    { start := 0, end_ := 100, b_pos := 7, p_pos := 50, count := 2 }).2 (by decide)
  simpa using h

/-- C6: every successful `alloc` with power-of-two alignment returns an
address that is a multiple of the alignment, namely `b_pos` rounded up via
`(b_pos + align - 1) & !(align - 1)` (the function `align_up`). -/
theorem alloc_aligned (s : EarlyAllocator) (size k a : Nat) (hk : k < 64)
    (h : (s.alloc size (2 ^ k)).2 = AllocResult.ok a) :
    a % 2 ^ k = 0 ∧ a = align_up s.b_pos (2 ^ k) := by
  have ha : a = align_up s.b_pos (2 ^ k) := by
    simp only [EarlyAllocator.alloc, checked_add] at h
    by_cases h1 : align_up s.b_pos (2 ^ k) % WORD + size % WORD < WORD
    · simp only [if_pos h1] at h
      by_cases h2 : align_up s.b_pos (2 ^ k) % WORD + size % WORD > s.p_pos
      · simp only [if_pos h2] at h
        simp at h
      · simp only [if_neg h2] at h
        injection h with h
        exact h.symm
    · simp only [if_neg h1] at h
      simp at h
  refine ⟨?hmod, ha⟩
  rw [ha, align_up_pow2 s.b_pos k hk]
  exact Nat.mul_mod_right _ _

/-- Witness for C6: from `b_pos = 5`, `alloc(16, 8)` returns address 8,
the cursor rounded up to the alignment. -/
theorem alloc_aligned_witness :
    8 % 2 ^ 3 = 0 ∧
      8 = align_up
        ({ start := 0, end_ := 8192, b_pos := 5, p_pos := 8192, count := 0 } : EarlyAllocator).b_pos
        (2 ^ 3) :=
  alloc_aligned { start := 0, end_ := 8192, b_pos := 5, p_pos := 8192, count := 0 }
    16 3 8 (by decide) (by decide)

/-- C7: `dealloc_pages` is a no-op: the whole state — hence `p_pos`,
`used_pages()` and `available_pages()` — is unchanged. -/
theorem dealloc_pages_noop (PS : Nat) (s : EarlyAllocator) (pos num_pages : Nat) :
    s.dealloc_pages pos num_pages = s ∧
    (s.dealloc_pages pos num_pages).p_pos = s.p_pos ∧
    used_pages PS (s.dealloc_pages pos num_pages) = used_pages PS s ∧
    available_pages PS (s.dealloc_pages pos num_pages) = available_pages PS s :=
  ⟨rfl, rfl, rfl, rfl⟩

/-- C8: the size product in `alloc_pages` is not overflow-checked: with
`PAGE_SIZE = 4096`, requesting `2^52 + 1` pages is unrepresentable
(`(2^52 + 1) * 4096 ≥ 2^64`), yet the call succeeds — the size wraps to
`4096` and `p_pos` drops only by that wrapped amount. -/
theorem alloc_pages_mul_wraps :
    WORD ≤ (2 ^ 52 + 1) * 4096 ∧
    (2 ^ 52 + 1) * 4096 % WORD = 4096 ∧
    (EarlyAllocator.alloc_pages 4096 (EarlyAllocator.new.init 0 8192)
        (2 ^ 52 + 1) 0).2 = AllocResult.ok 4096 ∧
    (EarlyAllocator.alloc_pages 4096 (EarlyAllocator.new.init 0 8192)
        (2 ^ 52 + 1) 0).1.p_pos = 8192 - 4096 :=
  ⟨by decide, by decide, by decide, by decide⟩

/-- C9: after `init(0, size)` a successful `alloc` returns the address 0
(spec scenario 2): the success value handed to `NonNull::new_unchecked`
is zero, so the non-null guarantee is not enforced for arenas at 0. -/
theorem alloc_can_return_zero :
    ((EarlyAllocator.new.init 0 8192).alloc 16 8).2 = AllocResult.ok 0 := by
  decide

/-- C10: `alloc_pages(0, 13)` with `PAGE_SIZE = 4096` on `[0, 0x3000)` is
not a no-op: the alignment mask alone moves `p_pos` from `0x3000` down to
`0x2000` and `used_pages()` grows by one although zero pages were asked. -/
theorem alloc_pages_zero_not_noop :
    (EarlyAllocator.alloc_pages 4096 (EarlyAllocator.new.init 0 12288) 0 13).2 =
      AllocResult.ok 8192 ∧
    (EarlyAllocator.alloc_pages 4096 (EarlyAllocator.new.init 0 12288) 0 13).1.p_pos <
      (EarlyAllocator.new.init 0 12288).p_pos ∧
    used_pages 4096
        (EarlyAllocator.alloc_pages 4096 (EarlyAllocator.new.init 0 12288) 0 13).1 =
      used_pages 4096 (EarlyAllocator.new.init 0 12288) + 1 :=
  ⟨by decide, by decide, by decide⟩

end EarlyAlloc
